import Mathlib

/-
Verification of the search-api repository.

This file gives a shallow embedding of the three source modules and proves
or refutes the specification claims about them.

Part 1: src/search/pws_search.py - the function run_search submits a task
  to a remote client, then polls its status in a while loop bounded by
  max_wait_time, sleeping poll_interval between polls.  On status
  "completed" it fetches the result, tries to decode a string payload as
  structured data (falling back to the raw string) and returns a
  dictionary; on "failed", on "cancelled"/"cancelling", and on timeout it
  prints a diagnostic and terminates the process with sys.exit(1).
  The remote client and the structured-data parser are external
  collaborators, modelled as pure parameters: the client answers the k-th
  status poll with a fixed snapshot, and the parser is a function
  String -> Option J (None models a parse failure / raised exception that
  the except-clause swallows).  The while loop is embedded as a
  fuel-indexed recursion; the constructor outOfFuel marks runs whose fuel
  was too small to reach the exit the Python loop would reach (with a
  positive poll interval any fuel of at least ceil(max_wait_time /
  poll_interval) suffices, as proved below).  Times are embedded as
  rationals standing for the Python floats.

Part 2: src/search/exa_search.py - run_search builds a list of product
  dictionaries from the response results and returns a summary dictionary.

Part 3: src/agent.py - score_sentence_relevance scores a sentence by
  counting keyword occurrences and adding fixed bonuses for two groups of
  informative words.
-/

namespace PWS

/-- A Python value as far as the decode step distinguishes it: either a
string or an already-structured value of the parser output type J. -/
inductive PyValue (J : Type) where
  | str (s : String)
  | obj (j : J)
deriving DecidableEq

/-- The field result.output of the fetched result: the code branches on
whether it has a .content attribute and unwraps it if so. -/
inductive OutputContent (J : Type) where
  | withContent (content : PyValue J)
  | plain (v : PyValue J)
deriving DecidableEq

variable {J : Type}

/-- Embedding of the attribute unwrapping: output_content.content if the
hasattr test succeeds, else output_content itself. -/
def extractOutput : OutputContent J → PyValue J
  | .withContent c => c
  | .plain v => v

/-- Embedding of the try/except decode step: if output_data is a string,
json.loads is attempted; a successful parse replaces the value, a parse
failure (loads = none, the except branch) keeps the raw string; a
non-string value is kept unchanged. -/
def decodeOutput (loads : String → Option J) : PyValue J → PyValue J
  | .str s =>
      match loads s with
      | some j => .obj j
      | none => .str s
  | .obj j => .obj j

/-- A status snapshot returned by client.task_run.retrieve: the status
string, and the optional error attribute read by
getattr(status, ..., "Unknown error") in the failed branch. -/
structure StatusSnapshot where
  status : String
  error : Option String
deriving DecidableEq

/-- Outcome of client.task_run.create: a run identifier, or an exception
message (AuthError / TransportError raised by the client). -/
inductive SubmitResult where
  | ok (runId : String)
  | err (msg : String)
deriving DecidableEq

/-- The remote client, an external collaborator, modelled as pure data:
the submit outcome, the snapshot answering the k-th status poll, and the
output field of the fetched result. -/
structure Client (J : Type) where
  submit : SubmitResult
  statuses : ℕ → StatusSnapshot
  resultOutput : OutputContent J

/-- The dictionary returned on the success path:
run_id, status and output keys. -/
structure ResultDict (J : Type) where
  run_id : String
  status : String
  output : PyValue J
deriving DecidableEq

/-- How a call of run_search ends.  success is the only genuine return;
exitError models the except-clause (print traceback, sys.exit(1));
exitFailed, exitCancelled and exitTimeout model the three sys.exit(1)
calls in the poll loop; outOfFuel is the embedding artefact for runs
whose fuel ran out before the Python loop would have ended. -/
inductive RunExit (J : Type) where
  | success (d : ResultDict J)
  | exitError (msg : String)
  | exitFailed (reason : String)
  | exitCancelled
  | exitTimeout (maxWait : ℚ)
  | outOfFuel
deriving DecidableEq

/-- True exactly for the constructors that model a sys.exit(1) process
termination, i.e. every case except a genuine return of a value and the
fuel artefact. -/
def RunExit.exits : RunExit J → Bool
  | .success _ => false
  | .outOfFuel => false
  | _ => true

/-- Observable counters of one poll-loop run: the number of
client.task_run.retrieve calls, the number of time.sleep calls, the
number of client.task_run.result calls, and the final value of the
elapsed loop variable. -/
structure Trace where
  polls : ℕ
  sleeps : ℕ
  fetches : ℕ
  elapsedFinal : ℚ
deriving DecidableEq

/-- The poll loop of run_search.  Direct embedding of

  while elapsed < max_wait_time:
      status = client.task_run.retrieve(run_id)
      if status.status == "completed": fetch result, decode, return dict
      elif status.status == "failed": sys.exit(1) with the error detail
      elif status.status in ["cancelled", "cancelling"]: sys.exit(1)
      else: time.sleep(poll_interval); elapsed += poll_interval
  sys.exit(1)  # timeout

k indexes which client snapshot the next retrieve call sees; fuel bounds
the number of iterations the embedding may unfold. -/
def pollLoop (loads : String → Option J) (c : Client J) (max_wait_time poll_interval : ℚ)
    (runId : String) : ℕ → ℕ → ℚ → RunExit J × Trace
  | 0, _k, elapsed =>
      if elapsed < max_wait_time then (.outOfFuel, ⟨0, 0, 0, elapsed⟩)
      else (.exitTimeout max_wait_time, ⟨0, 0, 0, elapsed⟩)
  | fuel + 1, k, elapsed =>
      if elapsed < max_wait_time then
        let st := c.statuses k
        if st.status = "completed" then
          (.success ⟨runId, st.status, decodeOutput loads (extractOutput c.resultOutput)⟩,
            ⟨1, 0, 1, elapsed⟩)
        else if st.status = "failed" then
          (.exitFailed (st.error.getD "Unknown error"), ⟨1, 0, 0, elapsed⟩)
        else if st.status ∈ (["cancelled", "cancelling"] : List String) then
          (.exitCancelled, ⟨1, 0, 0, elapsed⟩)
        else
          let r := pollLoop loads c max_wait_time poll_interval runId fuel (k + 1)
            (elapsed + poll_interval)
          (r.1, ⟨r.2.polls + 1, r.2.sleeps + 1, r.2.fetches, r.2.elapsedFinal⟩)
      else (.exitTimeout max_wait_time, ⟨0, 0, 0, elapsed⟩)

/-- run_search: submit the task (client.task_run.create is always called,
hence the middle component, the number of submit calls, is always 1),
then run the poll loop from elapsed = 0.  A submit exception lands in the
except-clause, which exits the process. -/
def run_search (loads : String → Option J) (c : Client J)
    (max_wait_time poll_interval : ℚ) (fuel : ℕ) : RunExit J × ℕ × Trace :=
  match c.submit with
  | .err m => (.exitError m, 1, ⟨0, 0, 0, 0⟩)
  | .ok runId =>
      ((pollLoop loads c max_wait_time poll_interval runId fuel 0 0).1, 1,
       (pollLoop loads c max_wait_time poll_interval runId fuel 0 0).2)

end PWS

namespace Exa

/-- One raw result of the search response.  Attributes the code probes
with hasattr are modelled as Option fields (none = attribute absent; for
id, title, url and text also none = the attribute is None). -/
structure RawResult where
  id : Option String
  title : Option String
  url : Option String
  score : Option ℚ
  published_date : Option String
  price : Option ℚ
  text : Option String
  highlights : Option (List String)
deriving DecidableEq

/-- Embedding of the Python expression v or d for string attributes:
None and the empty string are falsy, so both fall back to the default. -/
def pyOrStr (v : Option String) (d : String) : String :=
  match v with
  | none => d
  | some s => if s = "" then d else s

/-- The product dictionary built for one raw result. -/
structure Product where
  id : String
  title : String
  url : String
  score : Option ℚ
  published_date : Option String
  price : Option ℚ
  text : Option String
  highlights : Option (List String)
deriving DecidableEq

/-- Embedding of the loop body that formats one result of the response at
index idx into a product dictionary. -/
def buildProduct (idx : ℕ) (r : RawResult) : Product :=
  ⟨pyOrStr r.id ("result-" ++ toString idx),
   pyOrStr r.title "No title",
   pyOrStr r.url "",
   r.score,
   r.published_date,
   r.price,
   (match r.text with
    | none => none
    | some t => if t = "" then none else some (t.take 500)),
   r.highlights⟩

/-- The dictionary returned by run_search of exa_search:
query, matched_product, all_results and total_results keys. -/
structure SearchDict where
  query : String
  matched_product : Option Product
  all_results : List Product
  total_results : ℕ
deriving DecidableEq

/-- run_search of exa_search, its result-formatting core: build the
products list from the enumerated response results, take the first
product as matched_product when the list is non-empty (results[0] if
results else None), and record the length as total_results. -/
def run_search (query : String) (results : List RawResult) : SearchDict :=
  let products := results.enum.map (fun p => buildProduct p.1 p.2)
  ⟨query,
   (match products with
    | [] => none
    | p :: _ => some p),
   products,
   products.length⟩

end Exa

namespace Agent

/-- Embedding of the Python substring test needle in haystack. -/
def strIn (needle haystack : String) : Bool :=
  decide (needle.toList <:+: haystack.toList)

/-- First group of informative words of score_sentence_relevance. -/
def informativeWords1 : List String :=
  ["founded", "established", "company", "organization", "known for", "specializes"]

/-- Second group of informative words of score_sentence_relevance. -/
def informativeWords2 : List String :=
  ["born", "elected", "served", "became", "appointed"]

/-- score_sentence_relevance of agent.py: lowercase the sentence, add one
point per keyword occurring in it, then two bonus points for each of the
two informative-word groups with a member occurring in it. -/
def score_sentence_relevance (sentence : String) (keywords : List String) : ℤ :=
  let sentence_lower := sentence.toLower
  let base := keywords.foldl (fun sc kw => if strIn kw sentence_lower then sc + 1 else sc) 0
  let withBonus1 :=
    if informativeWords1.any (fun w => strIn w sentence_lower) then base + 2 else base
  if informativeWords2.any (fun w => strIn w sentence_lower) then withBonus1 + 2 else withBonus1

end Agent

/-
Concrete mock clients and inputs used to instantiate the theorems below,
in the style of the fixed-script mock client of the testable properties
section of the specification.
-/

/-- Mock client whose task always reports status failed with detail boom. -/
def c1Client : PWS.Client Unit :=
  ⟨.ok "run-1", fun _ => ⟨"failed", some "boom"⟩, .plain (.str "x")⟩

/-- Mock client whose task always reports status failed with no error
attribute. -/
def c1wClient : PWS.Client Unit :=
  ⟨.ok "run-1w", fun _ => ⟨"failed", none⟩, .plain (.str "x")⟩

/-- Mock client that always reports the unrecognized status weird-state. -/
def c2Client : PWS.Client Unit :=
  ⟨.ok "run-2", fun _ => ⟨"weird-state", none⟩, .plain (.str "x")⟩

/-- Mock client that always reports the unrecognized status mystery. -/
def c2wClient : PWS.Client Unit :=
  ⟨.ok "run-2w", fun _ => ⟨"mystery", none⟩, .plain (.str "x")⟩

/-- Mock client whose task is always still running. -/
def c3Client : PWS.Client Unit :=
  ⟨.ok "run-3", fun _ => ⟨"running", none⟩, .plain (.str "x")⟩

/-- Mock client whose task is always still queued. -/
def c3wClient : PWS.Client Unit :=
  ⟨.ok "run-3w", fun _ => ⟨"queued", none⟩, .plain (.str "x")⟩

/-- Mock client whose task is always still running. -/
def c4Client : PWS.Client Unit :=
  ⟨.ok "run-4", fun _ => ⟨"running", none⟩, .plain (.str "x")⟩

/-- Mock client whose task is always still queued. -/
def c4wClient : PWS.Client Unit :=
  ⟨.ok "run-4w", fun _ => ⟨"queued", none⟩, .plain (.str "x")⟩

/-- Mock client that completes immediately, with a string payload wrapped
in a content attribute. -/
def c5Client : PWS.Client ℕ :=
  ⟨.ok "run-5", fun _ => ⟨"completed", none⟩, .withContent (.str "[1]")⟩

/-- Mock client that completes immediately with an unwrapped string
payload. -/
def c6Client : PWS.Client Unit :=
  ⟨.ok "run-6", fun _ => ⟨"completed", none⟩, .plain (.str "raw")⟩

/-- Mock client that completes immediately. -/
def c7Client : PWS.Client Unit :=
  ⟨.ok "run-7", fun _ => ⟨"completed", none⟩, .plain (.str "x")⟩

/-- Mock client whose task reports status cancelled. -/
def c8aClient : PWS.Client Unit :=
  ⟨.ok "run-8a", fun _ => ⟨"cancelled", none⟩, .plain (.str "x")⟩

/-- Mock client whose task reports status cancelling. -/
def c8bClient : PWS.Client Unit :=
  ⟨.ok "run-8b", fun _ => ⟨"cancelling", none⟩, .plain (.str "x")⟩

/-- A concrete raw result of the search response. -/
def c9Result : Exa.RawResult :=
  ⟨some "id-1", some "Black Couch", some "https://example.com/1", some 1, none,
   some 499, some "a comfy couch", none⟩

/-- A concrete one-element response result list. -/
def c9Results : List Exa.RawResult := [c9Result]

/-
Claim theorems.
-/

/-- Claim C1 as stated is false: on a task-level terminal state run_search
does not return a TaskOutcome-like value to its caller.  With a client
whose task fails with detail boom, run_search ends in exitFailed, the
embedding of the sys.exit(1) call of the failed branch: the process is
aborted (exits = true), and no Failed value is returned. -/
theorem C1_counterexample :
    PWS.run_search (fun _ => none) c1Client 10 2 5 =
      (PWS.RunExit.exitFailed "boom", 1, ⟨1, 0, 0, 0⟩) ∧
    ((PWS.run_search (fun _ => none) c1Client 10 2 5).1).exits = true := by
  constructor <;> simp [PWS.run_search, PWS.pollLoop, c1Client, PWS.RunExit.exits]

/-- Claim C1 amended: every task-level terminal state of the poll loop of
run_search terminates the process via sys.exit(1) rather than returning
an outcome value.  When elapsed has reached the budget the loop ends in
the timeout exit; when a poll reports failed it ends in the failed exit
carrying the error detail (or the placeholder Unknown error); when a poll
reports cancelled or cancelling it ends in the cancelled exit; each of
these is a process exit, not a returned value. -/
theorem C1_amended {J : Type} (loads : String → Option J) (c : PWS.Client J)
    (mw iv el : ℚ) (rid : String) (fuel k : ℕ) :
    (mw ≤ el →
      PWS.pollLoop loads c mw iv rid fuel k el =
        (PWS.RunExit.exitTimeout mw, ⟨0, 0, 0, el⟩) ∧
      (PWS.pollLoop loads c mw iv rid fuel k el).1.exits = true) ∧
    (el < mw → 0 < fuel → (c.statuses k).status = "failed" →
      PWS.pollLoop loads c mw iv rid fuel k el =
        (PWS.RunExit.exitFailed ((c.statuses k).error.getD "Unknown error"),
         ⟨1, 0, 0, el⟩) ∧
      (PWS.pollLoop loads c mw iv rid fuel k el).1.exits = true) ∧
    (el < mw → 0 < fuel →
      ((c.statuses k).status = "cancelled" ∨ (c.statuses k).status = "cancelling") →
      PWS.pollLoop loads c mw iv rid fuel k el =
        (PWS.RunExit.exitCancelled, ⟨1, 0, 0, el⟩) ∧
      (PWS.pollLoop loads c mw iv rid fuel k el).1.exits = true) := by
  refine ⟨?_, ?_, ?_⟩
  · intro h
    have hn : ¬ el < mw := not_lt.mpr h
    cases fuel <;> simp [PWS.pollLoop, hn, PWS.RunExit.exits]
  · intro h1 h2 h3
    cases fuel with
    | zero => omega
    | succ f => simp [PWS.pollLoop, h1, h3, PWS.RunExit.exits]
  · intro h1 h2 h3
    cases fuel with
    | zero => omega
    | succ f => rcases h3 with h | h <;> simp [PWS.pollLoop, h1, h, PWS.RunExit.exits]

/-- Witness for the amended claim C1: a task that fails with no error
attribute makes the loop exit the process with the placeholder reason. -/
theorem C1_amended_witness :
    PWS.pollLoop (fun _ => none) c1wClient 7 2 "run-1w" 3 0 0 =
      (PWS.RunExit.exitFailed "Unknown error", ⟨1, 0, 0, 0⟩) := by
  have h := ((C1_amended (fun _ => none) c1wClient 7 2 0 "run-1w" 3 0).2.1
    (by norm_num) (by norm_num) rfl).1
  simpa [c1wClient] using h

/-- Claim C2 as stated is false: an unrecognized status does not fail
fast.  With a client that always answers weird-state and a 4 second
budget polled every 2 seconds, the loop sleeps and re-polls under the
unrecognized status (two polls, two sleeps) and finally exits via the
timeout path; no ProtocolError-like outcome exists anywhere in the code. -/
theorem C2_counterexample :
    PWS.pollLoop (fun _ => none) c2Client 4 2 "run-2" 10 0 0 =
      (PWS.RunExit.exitTimeout 4, ⟨2, 2, 0, 4⟩) ∧
    (PWS.pollLoop (fun _ => none) c2Client 4 2 "run-2" 10 0 0).2.sleeps ≠ 0 := by
  constructor <;> simp [PWS.pollLoop, c2Client] <;> norm_num

/-- Claim C2 amended: a status value outside the known enumeration is
treated exactly like queued or running; the iteration falls into the
still-running branch, sleeps once, adds the poll interval to elapsed and
re-polls, instead of failing fast. -/
theorem C2_amended {J : Type} (loads : String → Option J) (c : PWS.Client J)
    (mw iv el : ℚ) (rid : String) (fuel k : ℕ)
    (hel : el < mw)
    (hq : (c.statuses k).status ≠ "queued")
    (hr : (c.statuses k).status ≠ "running")
    (hc : (c.statuses k).status ≠ "completed")
    (hf : (c.statuses k).status ≠ "failed")
    (hca : (c.statuses k).status ≠ "cancelled")
    (hcg : (c.statuses k).status ≠ "cancelling") :
    PWS.pollLoop loads c mw iv rid (fuel + 1) k el =
      ((PWS.pollLoop loads c mw iv rid fuel (k + 1) (el + iv)).1,
       ⟨(PWS.pollLoop loads c mw iv rid fuel (k + 1) (el + iv)).2.polls + 1,
        (PWS.pollLoop loads c mw iv rid fuel (k + 1) (el + iv)).2.sleeps + 1,
        (PWS.pollLoop loads c mw iv rid fuel (k + 1) (el + iv)).2.fetches,
        (PWS.pollLoop loads c mw iv rid fuel (k + 1) (el + iv)).2.elapsedFinal⟩) := by
  simp [PWS.pollLoop, hel, hc, hf, hca, hcg]

/-- Witness for the amended claim C2 at the unrecognized status mystery. -/
theorem C2_amended_witness :
    PWS.pollLoop (fun _ => none) c2wClient 9 3 "run-2w" 2 0 0 =
      ((PWS.pollLoop (fun _ => none) c2wClient 9 3 "run-2w" 1 1 3).1,
       ⟨(PWS.pollLoop (fun _ => none) c2wClient 9 3 "run-2w" 1 1 3).2.polls + 1,
        (PWS.pollLoop (fun _ => none) c2wClient 9 3 "run-2w" 1 1 3).2.sleeps + 1,
        (PWS.pollLoop (fun _ => none) c2wClient 9 3 "run-2w" 1 1 3).2.fetches,
        (PWS.pollLoop (fun _ => none) c2wClient 9 3 "run-2w" 1 1 3).2.elapsedFinal⟩) := by
  have h := C2_amended (fun _ => none) c2wClient 9 3 0 "run-2w" 1 0 (by norm_num)
    (by simp [c2wClient]) (by simp [c2wClient]) (by simp [c2wClient])
    (by simp [c2wClient]) (by simp [c2wClient]) (by simp [c2wClient])
  simpa using h

/-- Claim C3 as stated is false: run_search performs no configuration
validation at entry.  With poll_interval 400 exceeding max_wait_time 300,
an invalid configuration by the claim, the task is still submitted (the
submit counter is 1) and the poll loop still runs one poll and one sleep
before exiting via the timeout path, instead of the call being rejected
before any task is submitted. -/
theorem C3_counterexample :
    (300 : ℚ) < 400 ∧
    PWS.run_search (fun _ => none) c3Client 300 400 3 =
      (PWS.RunExit.exitTimeout 300, 1, ⟨1, 1, 0, 400⟩) := by
  constructor
  · norm_num
  · simp [PWS.run_search, PWS.pollLoop, c3Client]
    norm_num

/-- Claim C3 amended: run_search never validates max_wait_time or
poll_interval.  The submit call is always made exactly once, whatever the
configuration; with a positive budget the loop always reaches at least
one status poll; and with a non-positive budget the loop body never runs
and the call ends in the timeout exit with zero polls. -/
theorem C3_amended {J : Type} (loads : String → Option J) (c : PWS.Client J)
    (mw iv : ℚ) (fuel : ℕ) :
    (PWS.run_search loads c mw iv fuel).2.1 = 1 ∧
    (∀ rid, c.submit = PWS.SubmitResult.ok rid → 0 < fuel → 0 < mw →
      1 ≤ (PWS.pollLoop loads c mw iv rid fuel 0 0).2.polls) ∧
    (∀ rid, c.submit = PWS.SubmitResult.ok rid → mw ≤ 0 →
      PWS.run_search loads c mw iv fuel =
        (PWS.RunExit.exitTimeout mw, 1, ⟨0, 0, 0, 0⟩)) := by
  refine ⟨?_, ?_, ?_⟩
  · cases h : c.submit <;> simp [PWS.run_search, h]
  · intro rid hs hf hmw
    cases fuel with
    | zero => omega
    | succ f =>
      simp only [PWS.pollLoop, if_pos hmw]
      split
      · simp
      · split
        · simp
        · split
          · simp
          · simp
  · intro rid hs hmw
    have hn : ¬ (0 : ℚ) < mw := not_lt.mpr hmw
    cases fuel <;> simp [PWS.run_search, hs, PWS.pollLoop, hn]

/-- Witness for the amended claim C3: with a negative budget the task is
still submitted and the call ends in the timeout exit with zero polls. -/
theorem C3_amended_witness :
    PWS.run_search (fun _ => none) c3wClient (-2) 5 4 =
      (PWS.RunExit.exitTimeout (-2), 1, ⟨0, 0, 0, 0⟩) ∧
    (PWS.run_search (fun _ => none) c3wClient (-2) 5 4).2.1 = 1 := by
  refine ⟨(C3_amended (fun _ => none) c3wClient (-2) 5 4).2.2 "run-3w" rfl (by norm_num),
    (C3_amended (fun _ => none) c3wClient (-2) 5 4).1⟩

/-- Helper: if every status poll answers running or queued, the loop
started at elapsed el runs exactly ceil((mw - el) / iv) further
iterations, each polling once and sleeping once, and ends in the timeout
exit with elapsed advanced by that many intervals. -/
lemma pollLoop_nonterminal_timeout {J : Type} (loads : String → Option J)
    (c : PWS.Client J) (mw iv : ℚ) (rid : String)
    (hiv : 0 < iv)
    (hrun : ∀ k, (c.statuses k).status = "running" ∨ (c.statuses k).status = "queued") :
    ∀ (n fuel k : ℕ) (el : ℚ), n = (⌈(mw - el) / iv⌉).toNat → n ≤ fuel →
      PWS.pollLoop loads c mw iv rid fuel k el =
        (PWS.RunExit.exitTimeout mw, ⟨n, n, 0, el + n * iv⟩) := by
  intro n
  induction n with
  | zero =>
    intro fuel k el h0 _
    have hceil : (⌈(mw - el) / iv⌉ : ℤ) ≤ 0 := by omega
    have hdiv : (mw - el) / iv ≤ 0 := by exact_mod_cast Int.ceil_le.mp hceil
    have hnum : mw - el ≤ 0 := by
      by_contra hcon
      push_neg at hcon
      exact absurd (div_pos hcon hiv) (not_lt.mpr hdiv)
    have hml : ¬ el < mw := by linarith
    cases fuel <;> simp [PWS.pollLoop, hml]
  | succ m ih =>
    intro fuel k el hn hfuel
    have hpos : 0 < (⌈(mw - el) / iv⌉ : ℤ) := by omega
    have hdiv : 0 < (mw - el) / iv := Int.ceil_pos.mp hpos
    have hnum : 0 < mw - el := by
      have := (lt_div_iff hiv).mp hdiv
      linarith
    have hel : el < mw := by linarith
    cases fuel with
    | zero => omega
    | succ f =>
      have hnext : m = (⌈(mw - (el + iv)) / iv⌉).toNat := by
        have hdd : (mw - (el + iv)) / iv = (mw - el) / iv - 1 := by
          field_simp
          ring
        have hci : (⌈(mw - el) / iv⌉ : ℤ) = (m : ℤ) + 1 := by omega
        rw [hdd, Int.ceil_sub_one, hci]
        omega
      have hrec := ih f (k + 1) (el + iv) hnext (by omega)
      have harith : el + iv + (m : ℚ) * iv = el + ((m : ℚ) + 1) * iv := by ring
      rcases hrun k with hst | hst <;>
        simp [PWS.pollLoop, hel, hst, hrec, harith] <;>
      push_cast <;>
      ring

/-- Claim C4 as stated is false in its outcome part: with a client that
always reports running, budget 6 and interval 4, the loop does perform
exactly ceil(6 / 4) = 2 polls and terminates with elapsed 8 at least the
budget, but it does not yield a TimedOut value to the caller: it ends in
exitTimeout, the embedding of the sys.exit(1) of the timeout branch, a
process abort (exits = true). -/
theorem C4_counterexample :
    PWS.pollLoop (fun _ => none) c4Client 6 4 "run-4" 9 0 0 =
      (PWS.RunExit.exitTimeout 6, ⟨2, 2, 0, 8⟩) ∧
    (PWS.pollLoop (fun _ => none) c4Client 6 4 "run-4" 9 0 0).1.exits = true := by
  constructor <;> simp [PWS.pollLoop, c4Client, PWS.RunExit.exits] <;> norm_num

/-- Claim C4 amended: for every positive budget and interval, if the
client reports running or queued on every poll, the loop performs exactly
ceil(mw / iv) polls (and as many sleeps), terminates with final elapsed
ceil(mw / iv) * iv at least the budget, and ends in the timeout exit of
the process rather than returning a TimedOut value. -/
theorem C4_amended {J : Type} (loads : String → Option J) (c : PWS.Client J)
    (mw iv : ℚ) (rid : String) (fuel : ℕ)
    (hmw : 0 < mw) (hiv : 0 < iv)
    (hrun : ∀ k, (c.statuses k).status = "running" ∨ (c.statuses k).status = "queued")
    (hfuel : (⌈mw / iv⌉).toNat ≤ fuel) :
    PWS.pollLoop loads c mw iv rid fuel 0 0 =
      (PWS.RunExit.exitTimeout mw,
       ⟨(⌈mw / iv⌉).toNat, (⌈mw / iv⌉).toNat, 0, ((⌈mw / iv⌉).toNat : ℚ) * iv⟩) ∧
    mw ≤ ((⌈mw / iv⌉).toNat : ℚ) * iv := by
  constructor
  · have h := pollLoop_nonterminal_timeout loads c mw iv rid hiv hrun
      ((⌈mw / iv⌉).toNat) fuel 0 0 (by rw [sub_zero]) hfuel
    simpa using h
  · have h1 : mw / iv ≤ ((⌈mw / iv⌉ : ℤ) : ℚ) := Int.le_ceil _
    have h2 : (0 : ℤ) ≤ ⌈mw / iv⌉ := le_of_lt (Int.ceil_pos.mpr (div_pos hmw hiv))
    have h3 : (((⌈mw / iv⌉).toNat : ℤ) : ℚ) = ((⌈mw / iv⌉ : ℤ) : ℚ) := by
      rw [Int.toNat_of_nonneg h2]
    have h4 := (div_le_iff hiv).mp h1
    push_cast at h3 ⊢
    rw [h3]
    exact h4

/-- Witness for the amended claim C4: budget 10, interval 3, always
queued; the loop makes ceil(10 / 3) = 4 polls and sleeps, and ends in the
timeout exit with elapsed 12, which is at least the budget. -/
theorem C4_amended_witness :
    PWS.pollLoop (fun _ => none) c4wClient 10 3 "run-4w" 4 0 0 =
      (PWS.RunExit.exitTimeout 10, ⟨4, 4, 0, 12⟩) ∧ (10 : ℚ) ≤ 12 := by
  have hc : (⌈(10 : ℚ) / 3⌉ : ℤ) = 4 := by
    rw [Int.ceil_eq_iff] <;> norm_num
  have hcn : (⌈(10 : ℚ) / 3⌉).toNat = 4 := by rw [hc]; rfl
  have h := C4_amended (fun _ => none) c4wClient 10 3 "run-4w" 4 (by norm_num)
    (by norm_num) (fun k => Or.inr rfl) (by rw [hcn])
  rw [hcn] at h
  constructor
  · have h1 := h.1
    norm_num at h1
    exact h1
  · norm_num

/-- Claim C5, confirmed: the payload-decode step of run_search is total
(embedded without any failure case) and, for a completed task whose raw
payload is the string s, the output field of the success outcome is the
parsed object whenever the parse succeeds and the original string s
unchanged whenever the parse fails. -/
theorem C5_decode_in_outcome {J : Type} (loads : String → Option J) (c : PWS.Client J)
    (mw iv el : ℚ) (rid : String) (fuel k : ℕ) (s : String)
    (hel : el < mw) (hfuel : 0 < fuel)
    (hst : (c.statuses k).status = "completed")
    (hout : PWS.extractOutput c.resultOutput = PWS.PyValue.str s) :
    (∀ j, loads s = some j →
      (PWS.pollLoop loads c mw iv rid fuel k el).1 =
        PWS.RunExit.success ⟨rid, "completed", PWS.PyValue.obj j⟩) ∧
    (loads s = none →
      (PWS.pollLoop loads c mw iv rid fuel k el).1 =
        PWS.RunExit.success ⟨rid, "completed", PWS.PyValue.str s⟩) := by
  cases fuel with
  | zero => omega
  | succ f =>
    constructor
    · intro j hj
      simp [PWS.pollLoop, hel, hst, hout, PWS.decodeOutput, hj]
    · intro hn
      simp [PWS.pollLoop, hel, hst, hout, PWS.decodeOutput, hn]

/-- Witness for claim C5: the same completed task with string payload
yields the parsed object under a parser that succeeds and the unchanged
string under a parser that fails. -/
theorem C5_witness :
    (PWS.pollLoop (fun _ => some 7) c5Client 10 2 "run-5" 3 0 0).1 =
      PWS.RunExit.success ⟨"run-5", "completed", PWS.PyValue.obj 7⟩ ∧
    (PWS.pollLoop (fun _ => none) c5Client 10 2 "run-5" 3 0 0).1 =
      PWS.RunExit.success ⟨"run-5", "completed", PWS.PyValue.str "[1]"⟩ := by
  constructor
  · exact (C5_decode_in_outcome (fun _ => some 7) c5Client 10 2 0 "run-5" 3 0 "[1]"
      (by norm_num) (by norm_num) rfl rfl).1 7 rfl
  · exact (C5_decode_in_outcome (fun _ => none) c5Client 10 2 0 "run-5" 3 0 "[1]"
      (by norm_num) (by norm_num) rfl rfl).2 rfl

/-- Claim C6, confirmed: if the client reports completed on the very
first poll, run_search fetches the result exactly once (fetches = 1,
after one poll) and returns the success dictionary without ever sleeping
(sleeps = 0). -/
theorem C6_completed_first_poll {J : Type} (loads : String → Option J) (c : PWS.Client J)
    (mw iv : ℚ) (fuel : ℕ) (rid : String)
    (hsub : c.submit = PWS.SubmitResult.ok rid)
    (hmw : 0 < mw) (hfuel : 0 < fuel)
    (hst : (c.statuses 0).status = "completed") :
    PWS.run_search loads c mw iv fuel =
      (PWS.RunExit.success ⟨rid, "completed",
         PWS.decodeOutput loads (PWS.extractOutput c.resultOutput)⟩, 1,
       ⟨1, 0, 1, 0⟩) := by
  cases fuel with
  | zero => omega
  | succ f => simp [PWS.run_search, hsub, PWS.pollLoop, hmw, hst]

/-- Witness for claim C6 on a concrete immediately-completing client. -/
theorem C6_witness :
    PWS.run_search (fun _ => none) c6Client 5 2 4 =
      (PWS.RunExit.success ⟨"run-6", "completed", PWS.PyValue.str "raw"⟩, 1,
       ⟨1, 0, 1, 0⟩) := by
  have h := C6_completed_first_poll (fun _ => none) c6Client 5 2 4 "run-6" rfl
    (by norm_num) (by norm_num) rfl
  simpa [c6Client, PWS.extractOutput, PWS.decodeOutput] using h

/-- Claim C7, confirmed: in every run of the poll loop, a result fetch
happens only if some polled iteration observed the status completed; the
completed iteration is the last poll performed and the fetch happens
exactly once. -/
theorem C7_fetch_only_after_completed {J : Type} (loads : String → Option J)
    (c : PWS.Client J) (mw iv : ℚ) (rid : String) :
    ∀ (fuel k : ℕ) (el : ℚ),
      (PWS.pollLoop loads c mw iv rid fuel k el).2.fetches ≠ 0 →
      ∃ j, (PWS.pollLoop loads c mw iv rid fuel k el).2.polls = j + 1 ∧
        (c.statuses (k + j)).status = "completed" ∧
        (PWS.pollLoop loads c mw iv rid fuel k el).2.fetches = 1 := by
  intro fuel
  induction fuel with
  | zero =>
    intro k el h
    by_cases hel : el < mw <;> simp [PWS.pollLoop, hel] at h
  | succ f ih =>
    intro k el h
    by_cases hel : el < mw
    · by_cases h1 : (c.statuses k).status = "completed"
      · exact ⟨0, by simp [PWS.pollLoop, hel, h1], by simpa using h1,
          by simp [PWS.pollLoop, hel, h1]⟩
      · by_cases h2 : (c.statuses k).status = "failed"
        · simp [PWS.pollLoop, hel, h1, h2] at h
        · by_cases h3 : (c.statuses k).status = "cancelled" ∨
              (c.statuses k).status = "cancelling"
          · rcases h3 with h3 | h3 <;> simp [PWS.pollLoop, hel, h1, h2, h3] at h
          · push_neg at h3
            have h' : (PWS.pollLoop loads c mw iv rid f (k + 1) (el + iv)).2.fetches ≠ 0 := by
              simpa [PWS.pollLoop, hel, h1, h2, h3.1, h3.2] using h
            obtain ⟨j, hp, hs, hfet⟩ := ih (k + 1) (el + iv) h'
            refine ⟨j + 1, ?_, ?_, ?_⟩
            · simp [PWS.pollLoop, hel, h1, h2, h3.1, h3.2, hp]
            · have hk : k + (j + 1) = (k + 1) + j := by omega
              rw [hk]
              exact hs
            · simp [PWS.pollLoop, hel, h1, h2, h3.1, h3.2, hfet]
    · simp [PWS.pollLoop, hel] at h

/-- Witness for claim C7 on a concrete immediately-completing client. -/
theorem C7_witness :
    ∃ j, (PWS.pollLoop (fun _ => none) c7Client 10 2 "run-7" 3 0 0).2.polls = j + 1 ∧
      (c7Client.statuses (0 + j)).status = "completed" ∧
      (PWS.pollLoop (fun _ => none) c7Client 10 2 "run-7" 3 0 0).2.fetches = 1 :=
  C7_fetch_only_after_completed (fun _ => none) c7Client 10 2 "run-7" 3 0 0
    (by simp [PWS.pollLoop, c7Client])

/-- Claim C8, confirmed: the statuses cancelled and cancelling are
handled identically by the poll loop; under either one the iteration ends
the loop at once with the same cancelled process exit, after exactly the
one poll that observed it and with no further polling, sleeping or
fetching. -/
theorem C8_cancel_statuses_identical {J : Type} (loads : String → Option J)
    (c : PWS.Client J) (mw iv el : ℚ) (rid : String) (fuel k : ℕ)
    (hel : el < mw) (hfuel : 0 < fuel)
    (hst : (c.statuses k).status = "cancelled" ∨ (c.statuses k).status = "cancelling") :
    PWS.pollLoop loads c mw iv rid fuel k el =
      (PWS.RunExit.exitCancelled, ⟨1, 0, 0, el⟩) := by
  cases fuel with
  | zero => omega
  | succ f => rcases hst with h | h <;> simp [PWS.pollLoop, hel, h]

/-- Witness for claim C8: a cancelled client and a cancelling client
produce the identical loop result. -/
theorem C8_witness :
    PWS.pollLoop (fun _ => none) c8aClient 10 2 "run-8a" 4 0 0 =
      (PWS.RunExit.exitCancelled, ⟨1, 0, 0, 0⟩) ∧
    PWS.pollLoop (fun _ => none) c8bClient 10 2 "run-8b" 4 0 0 =
      (PWS.RunExit.exitCancelled, ⟨1, 0, 0, 0⟩) :=
  ⟨C8_cancel_statuses_identical (fun _ => none) c8aClient 10 2 0 "run-8a" 4 0
      (by norm_num) (by norm_num) (Or.inl rfl),
   C8_cancel_statuses_identical (fun _ => none) c8bClient 10 2 0 "run-8b" 4 0
      (by norm_num) (by norm_num) (Or.inr rfl)⟩

/-- Claim C9, confirmed: the dictionary returned by run_search of
exa_search always has total_results equal to the length of all_results,
and matched_product is the first element of all_results when that list is
non-empty and none when it is empty. -/
theorem C9_exa_result_invariant (query : String) (rs : List Exa.RawResult) :
    (Exa.run_search query rs).total_results =
      (Exa.run_search query rs).all_results.length ∧
    ((Exa.run_search query rs).all_results = [] →
      (Exa.run_search query rs).matched_product = none) ∧
    (∀ p l, (Exa.run_search query rs).all_results = p :: l →
      (Exa.run_search query rs).matched_product = some p) := by
  cases h : rs.enum.map (fun p => Exa.buildProduct p.1 p.2) with
  | nil =>
    refine ⟨by simp [Exa.run_search, h], by simp [Exa.run_search, h], ?_⟩
    intro p l hpl
    simp [Exa.run_search, h] at hpl
  | cons q t =>
    refine ⟨by simp [Exa.run_search, h], by simp [Exa.run_search, h], ?_⟩
    intro p l hpl
    simp only [Exa.run_search, h] at hpl ⊢
    injection hpl with hq ht
    rw [hq]

/-- Witness for claim C9 on a concrete one-element response. -/
theorem C9_witness :
    (Exa.run_search "black couch" c9Results).matched_product =
      some (Exa.buildProduct 0 c9Result) ∧
    (Exa.run_search "black couch" c9Results).total_results =
      (Exa.run_search "black couch" c9Results).all_results.length := by
  refine ⟨(C9_exa_result_invariant "black couch" c9Results).2.2
      (Exa.buildProduct 0 c9Result) [] rfl,
    (C9_exa_result_invariant "black couch" c9Results).1⟩

/-- Helper: folding the keyword-counting step of score_sentence_relevance
from an accumulator adds exactly the number of list elements satisfying
the predicate. -/
lemma foldl_if_count (p : String → Bool) (l : List String) (a : ℤ) :
    l.foldl (fun sc kw => if p kw then sc + 1 else sc) a = a + (l.countP p : ℤ) := by
  induction l generalizing a with
  | nil => simp
  | cons x xs ih =>
    simp only [List.foldl_cons, List.countP_cons]
    rw [ih]
    by_cases hx : p x <;> simp [hx] <;> push_cast <;> ring

/-- Claim C10, confirmed: score_sentence_relevance returns a non-negative
integer that is at least the number of keywords, counted with
multiplicity, occurring as substrings of the lowercased sentence, and is
exactly that count plus 2 for each of the two informative-word groups
that has a member occurring in the lowercased sentence. -/
theorem C10_score_formula (sentence : String) (keywords : List String) :
    0 ≤ Agent.score_sentence_relevance sentence keywords ∧
    (keywords.countP (fun kw => Agent.strIn kw sentence.toLower) : ℤ) ≤
      Agent.score_sentence_relevance sentence keywords ∧
    Agent.score_sentence_relevance sentence keywords =
      (keywords.countP (fun kw => Agent.strIn kw sentence.toLower) : ℤ) +
      (if Agent.informativeWords1.any (fun w => Agent.strIn w sentence.toLower)
        then 2 else 0) +
      (if Agent.informativeWords2.any (fun w => Agent.strIn w sentence.toLower)
        then 2 else 0) := by
  have hb := foldl_if_count (fun kw => Agent.strIn kw sentence.toLower) keywords 0
  have key : Agent.score_sentence_relevance sentence keywords =
      (keywords.countP (fun kw => Agent.strIn kw sentence.toLower) : ℤ) +
      (if Agent.informativeWords1.any (fun w => Agent.strIn w sentence.toLower)
        then 2 else 0) +
      (if Agent.informativeWords2.any (fun w => Agent.strIn w sentence.toLower)
        then 2 else 0) := by
    simp only [Agent.score_sentence_relevance, hb]
    by_cases h1 : Agent.informativeWords1.any (fun w => Agent.strIn w sentence.toLower) <;>
      by_cases h2 : Agent.informativeWords2.any (fun w => Agent.strIn w sentence.toLower) <;>
      simp [h1, h2] <;>
      omega
  refine ⟨?_, ?_, key⟩ <;> rw [key] <;> split_ifs <;> omega
